import Mathlib

/-!
Shallow embedding of the order-lifecycle controller of the snack
repository (src/backend/controllers/orderController.js) and proofs of the
specification's claims about it.

JavaScript numbers that pass through `Number(...)` coercion are modelled
by `JSNum` (either NaN or an exact rational); the document stores are
modelled as lists of records, and `findByIdAndUpdate` as a map over the
matching identifier. Fallible external steps (cart clearing, the Stripe
session call, webhook signature verification, database writes inside the
webhook handler) are supplied as explicit parameters.
-/

namespace Snack

/-- Result of JavaScript `Number(x)` coercion: either NaN or a rational. -/
inductive JSNum where
  | nan : JSNum
  | num : ℚ → JSNum
deriving DecidableEq, Repr

/-- JavaScript `v || d` on a coerced number: NaN and 0 are falsy. -/
def jsOr (v : JSNum) (d : ℚ) : ℚ :=
  match v with
  | .nan => d
  | .num q => if q = 0 then d else q

/-- JavaScript `Math.round` on a non-NaN number: round half toward
+infinity, computed on the rational's numerator and denominator (see
`jsRound_eq_floor`). -/
def jsRound (q : ℚ) : ℤ := (2 * q.num + q.den) / (2 * (q.den : ℤ))

/-- JavaScript `s || d` on an optional string: a missing or empty string is falsy. -/
def strOr (v : Option String) (d : String) : String :=
  match v with
  | none => d
  | some s => if s = "" then d else s

/-- Truthiness filter on an optional string (empty string is falsy). -/
def optTruthy (v : Option String) : Option String :=
  match v with
  | none => none
  | some s => if s = "" then none else some s

/-- A raw request item as received by `placeOrder` (price and quantity are
the `Number(...)` coercions of whatever the client sent). -/
structure ItemIn where
  _id : String
  name : Option String
  price : JSNum
  quantity : JSNum
  image : Option String
deriving DecidableEq, Repr

/-- A normalized order line item as stored on the order. -/
structure Item where
  _id : String
  name : Option String
  price : ℚ
  quantity : ℚ
  image : Option String
deriving DecidableEq, Repr

/-- The label used in the item-specific error message: `it.name || it._id`. -/
def itemLabel (it : ItemIn) : String := strOr it.name it._id

/-- The quantity normalization `Number(it.quantity) || 1`. -/
def coerceQty : JSNum → ℚ
  | .nan => 1
  | .num q => if q = 0 then 1 else q

/-- Whether an input item's price is rejected by `placeOrder`
(`Number.isNaN(priceNum) || priceNum < 0`). -/
def badPrice (it : ItemIn) : Bool :=
  match it.price with
  | .nan => true
  | .num p => decide (p < 0)

/-- Normalization of a single item in the `items.map` callback: throws on a
NaN or negative price, otherwise keeps id/name, coerced price/quantity and
a truthy image. -/
def normalizeItem (it : ItemIn) : Except String Item :=
  match it.price with
  | .nan => .error ("Invalid price for item " ++ itemLabel it)
  | .num p =>
    if p < 0 then .error ("Invalid price for item " ++ itemLabel it)
    else .ok { _id := it._id, name := it.name, price := p,
               quantity := coerceQty it.quantity, image := optTruthy it.image }

/-- The `items.map(...)` loop with JavaScript throw semantics: the first
invalid item aborts the whole call. -/
def normalizeItems : List ItemIn → Except String (List Item)
  | [] => .ok []
  | it :: rest =>
    match normalizeItem it with
    | .error m => .error m
    | .ok v =>
      match normalizeItems rest with
      | .error m => .error m
      | .ok vs => .ok (v :: vs)

/-- An order document in the order store. -/
structure Order where
  _id : String
  userId : String
  items : List Item
  amount : JSNum
  address : String
  payment : Bool
  paymentMethod : String
  status : String
  stripeSessionId : Option String
deriving DecidableEq, Repr

/-- The cart-relevant slice of a user document. -/
structure User where
  _id : String
  cartData : List (String × ℚ)
deriving DecidableEq, Repr

/-- `orderModel.findByIdAndUpdate(oid, ...)`: update the matching order,
no-op when no order matches. -/
def updateOrder (oid : String) (f : Order → Order) (orders : List Order) : List Order :=
  orders.map (fun o => if o._id = oid then f o else o)

/-- The update `{ payment: true, status: 'confirmed' }` applied by the
verification and webhook paths. -/
def markPaid (oid : String) (orders : List Order) : List Order :=
  updateOrder oid (fun o => { o with payment := true, status := "confirmed" }) orders

/-- `userModel.findByIdAndUpdate(userId, { cartData: {} })`. -/
def clearCart (uid : String) (users : List User) : List User :=
  users.map (fun u => if u._id = uid then { u with cartData := [] } else u)

/-- A Stripe checkout session as returned by the gateway. -/
structure Session where
  id : String
  url : Option String
deriving DecidableEq, Repr

/-- Environment and external-effect outcomes for one `placeOrder` call:
the `Number(process.env.DELIVERY_FEE)` coercion, whether the cart-clearing
write succeeds, and the result of `stripe.checkout.sessions.create`. -/
structure Env where
  deliveryFeeEnv : JSNum
  cartClearOk : Bool
  sessionRes : Except String Session
deriving Repr

/-- One Stripe line item (`unit_amount` in the smallest currency unit). -/
structure LineItem where
  name : String
  unit_amount : ℤ
  quantity : ℚ
deriving DecidableEq, Repr

/-- The per-item Stripe line item built by `placeOrder`. -/
def mkLineItem (item : Item) : LineItem :=
  { name := strOr item.name "Item",
    unit_amount := jsRound (item.price * 100),
    quantity := item.quantity }

/-- The delivery-charges line item pushed when the fee is positive. -/
def deliveryLineItem (fee : ℚ) : LineItem :=
  { name := "Delivery Charges", unit_amount := jsRound (fee * 100), quantity := 1 }

/-- The request body of `placeOrder` after middleware: resolved user id
(`none` when unresolvable), the items array (`none` when missing or not an
array), and the optional payment method (destructuring default `stripe`). -/
structure PlaceReq where
  userId : Option String
  items : Option (List ItemIn)
  amount : JSNum
  address : String
  paymentMethod : Option String
deriving DecidableEq, Repr

/-- The HTTP-level outcome of `placeOrder`. -/
inductive PlaceRes where
  | unauthorized
  | emptyCart
  | invalidItem (msg : String)
  | codSuccess (order : Order)
  | stripeSuccess (sessionUrl : String)
  | gatewayNoUrl
  | gatewayError (msg : String)
deriving DecidableEq, Repr

/-- Full outcome of a `placeOrder` call: the response, both stores after
the call, whether the payment gateway was contacted, and the line items
sent to it (empty when it was never contacted). -/
structure PlaceOutcome where
  res : PlaceRes
  orders : List Order
  users : List User
  gatewayContacted : Bool
  lineItems : List LineItem
deriving DecidableEq, Repr

/-- The `placeOrder` controller: validates the user and items, normalizes
the items, persists the new order, best-effort clears the cart, then
either returns the order (cod/none) or builds Stripe line items, creates a
checkout session, stores its id on the order and returns the session URL. -/
def placeOrder (env : Env) (newId : String) (req : PlaceReq)
    (orders : List Order) (users : List User) : PlaceOutcome :=
  match req.userId with
  | none => ⟨.unauthorized, orders, users, false, []⟩
  | some uid =>
    match req.items with
    | none => ⟨.emptyCart, orders, users, false, []⟩
    | some its =>
      if its.isEmpty then ⟨.emptyCart, orders, users, false, []⟩
      else
        match normalizeItems its with
        | .error m => ⟨.invalidItem m, orders, users, false, []⟩
        | .ok nitems =>
          let pm := req.paymentMethod.getD "stripe"
          let newOrder : Order :=
            { _id := newId, userId := uid, items := nitems, amount := req.amount,
              address := req.address, payment := false, paymentMethod := pm,
              status := if pm = "stripe" then "awaiting_payment" else "pending",
              stripeSessionId := none }
          let orders1 := orders ++ [newOrder]
          let users1 := if env.cartClearOk then clearCart uid users else users
          if pm = "cod" ∨ pm = "none" then
            ⟨.codSuccess newOrder, orders1, users1, false, []⟩
          else
            let li := nitems.map mkLineItem
            let fee := jsOr env.deliveryFeeEnv 80
            let line_items := if fee > 0 then li ++ [deliveryLineItem fee] else li
            match env.sessionRes with
            | .error m => ⟨.gatewayError m, orders1, users1, true, line_items⟩
            | .ok sess =>
              let orders2 :=
                updateOrder newId (fun o => { o with stripeSessionId := some sess.id }) orders1
              match optTruthy sess.url with
              | none => ⟨.gatewayNoUrl, orders2, users1, true, line_items⟩
              | some u => ⟨.stripeSuccess u, orders2, users1, true, line_items⟩

/-- The JavaScript value of `req.body.success` in `verifyOrder` (a boolean,
a string, or anything else such as undefined). -/
inductive SuccessVal where
  | b (v : Bool)
  | s (v : String)
  | undef
deriving DecidableEq, Repr

/-- The test `success === 'true' || success === true`. -/
def isTrueLike : SuccessVal → Bool
  | .b true => true
  | .s v => v = "true"
  | _ => false

/-- Outcome of `verifyOrder`. -/
inductive VerifyRes where
  | invalidInput
  | paid
  | notPaid
deriving DecidableEq, Repr

/-- The `verifyOrder` controller: requires a truthy `orderId`; on a
true-like `success` marks the order paid and confirmed, otherwise marks it
cancelled (the order is kept in the store either way). -/
def verifyOrder (orderId : Option String) (success : SuccessVal)
    (orders : List Order) : VerifyRes × List Order :=
  match optTruthy orderId with
  | none => (.invalidInput, orders)
  | some oid =>
    if isTrueLike success then (.paid, markPaid oid orders)
    else (.notPaid, updateOrder oid (fun o => { o with status := "cancelled" }) orders)

/-- Outcome of `updateStatus`. -/
inductive UpdateRes where
  | invalidInput
  | updated
deriving DecidableEq, Repr

/-- The admin `updateStatus` controller: requires truthy `orderId` and
`status`, then unconditionally overwrites the order's status string. -/
def updateStatus (orderId status : Option String)
    (orders : List Order) : UpdateRes × List Order :=
  match optTruthy orderId, optTruthy status with
  | some oid, some st =>
      (.updated, updateOrder oid (fun o => { o with status := st }) orders)
  | _, _ => (.invalidInput, orders)

/-- A parsed Stripe webhook event: its type, the truthiness-checked
`session.metadata.orderId`, and `session.id`. -/
structure WebhookEvent where
  type : String
  metadataOrderId : Option String
  sessionId : Option String
deriving DecidableEq, Repr

/-- HTTP-level outcome of the webhook handler: 400 rejection on signature
failure, 500 on a database failure, or the `{received:true}` acknowledgement. -/
inductive WebhookRes where
  | reject (msg : String)
  | serverError
  | ack
deriving DecidableEq, Repr

/-- `orderModel.findOne({ stripeSessionId: session.id })`. -/
def findBySession (sid : String) (orders : List Order) : Option Order :=
  orders.find? (fun o => o.stripeSessionId = some sid)

/-- The `stripeWebhookHandler` controller. `verif` is the outcome of
signature verification (`constructEvent` or the dev-mode raw body), `dbOk`
whether the database operations inside the try block succeed. On a
`checkout.session.completed` event the order named by the metadata order id
is marked paid; otherwise the handler falls back to a lookup by stripe
session id, doing nothing when no order matches. Every non-error path
acknowledges the event. -/
def stripeWebhookHandler (verif : Except String WebhookEvent) (dbOk : Bool)
    (orders : List Order) : WebhookRes × List Order :=
  match verif with
  | .error m => (.reject ("Webhook Error: " ++ m), orders)
  | .ok ev =>
    if ev.type = "checkout.session.completed" then
      match optTruthy ev.metadataOrderId with
      | some oid =>
        if dbOk then (.ack, markPaid oid orders) else (.serverError, orders)
      | none =>
        match optTruthy ev.sessionId with
        | some sid =>
          if dbOk then
            match findBySession sid orders with
            | some o => (.ack, markPaid o._id orders)
            | none => (.ack, orders)
          else (.serverError, orders)
        | none => (.ack, orders)
    else (.ack, orders)

/-- The numeric value under a non-NaN `JSNum` (0 for NaN; only used where
NaN has been excluded). -/
def numOf : JSNum → ℚ
  | .nan => 0
  | .num q => q

/-- The spec's order-store invariant: `payment == true` implies
`status == confirmed`. -/
def InvHolds (orders : List Order) : Prop :=
  ∀ o ∈ orders, o.payment = true → o.status = "confirmed"

instance instDecidableInvHolds (orders : List Order) : Decidable (InvHolds orders) := by
  unfold InvHolds
  infer_instance

/-! Helper lemmas about the embedded operations. -/

theorem jsRound_eq_floor (q : ℚ) : jsRound q = ⌊q + 1/2⌋ := by
  have h : q + 1/2 = ((2 * q.num + (q.den : ℤ) : ℤ) : ℚ) / ((2 * q.den : ℕ) : ℚ) := by
    rw [eq_div_iff (by positivity)]
    push_cast
    linear_combination 2 * Rat.mul_den_eq_num q
  rw [h, Rat.floor_intCast_div_natCast, jsRound]
  push_cast
  rfl

theorem jsRound_exact (q : ℚ) (h : q.den = 1) : (jsRound q : ℚ) = q := by
  have hq : ((q.num : ℚ)) = q := (Rat.den_eq_one_iff q).mp h
  rw [jsRound, h]
  have h2 : (2 * q.num + ((1 : ℕ) : ℤ)) / (2 * ((1 : ℕ) : ℤ)) = q.num := by
    simp only [Nat.cast_one]
    omega
  rw [h2, hq]

theorem normalizeItem_bad {it : ItemIn} (h : badPrice it = true) :
    normalizeItem it = .error ("Invalid price for item " ++ itemLabel it) := by
  unfold normalizeItem badPrice at *
  cases hp : it.price with
  | nan => rfl
  | num p =>
    rw [hp] at h
    simp only [decide_eq_true_eq] at h
    simp [h]

theorem normalizeItem_ok {it : ItemIn} (h : badPrice it = false) :
    normalizeItem it = .ok { _id := it._id, name := it.name, price := numOf it.price,
                             quantity := coerceQty it.quantity, image := optTruthy it.image } := by
  unfold normalizeItem badPrice at *
  cases hp : it.price with
  | nan => rw [hp] at h; simp at h
  | num p =>
    rw [hp] at h
    simp only [decide_eq_false_iff_not, not_lt] at h
    dsimp only [numOf]
    rw [if_neg (not_lt.mpr h)]

theorem normalizeItems_error_of_bad {its : List ItemIn} {it : ItemIn}
    (hmem : it ∈ its) (hbad : badPrice it = true) :
    ∃ w, w ∈ its ∧ badPrice w = true ∧
      normalizeItems its = .error ("Invalid price for item " ++ itemLabel w) := by
  induction its with
  | nil => cases hmem
  | cons hd tl ih =>
    by_cases hhd : badPrice hd = true
    · refine ⟨hd, List.mem_cons_self hd tl, hhd, ?_⟩
      unfold normalizeItems
      rw [normalizeItem_bad hhd]
    · have hhd' : badPrice hd = false := by
        revert hhd; cases badPrice hd <;> simp
      have hmem' : it ∈ tl := by
        rcases List.mem_cons.mp hmem with h | h
        · subst h; rw [hbad] at hhd'; cases hhd'
        · exact h
      obtain ⟨w, hw, hwbad, herr⟩ := ih hmem'
      refine ⟨w, List.mem_cons_of_mem hd hw, hwbad, ?_⟩
      unfold normalizeItems
      rw [normalizeItem_ok hhd', herr]

theorem normalizeItems_ok_quantities {its : List ItemIn} {ns : List Item}
    (h : normalizeItems its = .ok ns) :
    ns.map Item.quantity = its.map (fun it => coerceQty it.quantity) := by
  induction its generalizing ns with
  | nil =>
    unfold normalizeItems at h
    cases h
    rfl
  | cons hd tl ih =>
    unfold normalizeItems at h
    cases hn : normalizeItem hd with
    | error m => rw [hn] at h; cases h
    | ok v =>
      rw [hn] at h
      cases ht : normalizeItems tl with
      | error m => rw [ht] at h; cases h
      | ok vs =>
        rw [ht] at h
        cases h
        have hq : v.quantity = coerceQty hd.quantity := by
          by_cases hb : badPrice hd = true
          · rw [normalizeItem_bad hb] at hn; cases hn
          · have hb' : badPrice hd = false := by
              revert hb; cases badPrice hd <;> simp
            rw [normalizeItem_ok hb'] at hn
            cases hn
            rfl
        simp [hq, ih ht]

theorem updateOrder_map_id (oid : String) (f : Order → Order)
    (hf : ∀ o, (f o)._id = o._id) (l : List Order) :
    (updateOrder oid f l).map Order._id = l.map Order._id := by
  unfold updateOrder
  rw [List.map_map]
  apply List.map_congr_left
  intro o _
  by_cases h : o._id = oid
  · simp [h, hf]
  · simp [h]

theorem markPaid_map_id (oid : String) (l : List Order) :
    (markPaid oid l).map Order._id = l.map Order._id := by
  unfold markPaid
  exact updateOrder_map_id oid
    (fun o => { o with payment := true, status := "confirmed" }) (fun _ => rfl) l

theorem markPaid_idem (oid : String) (l : List Order) :
    markPaid oid (markPaid oid l) = markPaid oid l := by
  unfold markPaid updateOrder
  rw [List.map_map]
  apply List.map_congr_left
  intro o _
  by_cases h : o._id = oid <;> simp [h]

theorem markPaid_noop {oid : String} {l : List Order}
    (h : ∀ o ∈ l, o._id ≠ oid) : markPaid oid l = l := by
  unfold markPaid updateOrder
  conv_rhs => rw [← List.map_id l]
  apply List.map_congr_left
  intro o ho
  simp [h o ho]

theorem findBySession_markPaid (sid oid : String) (l : List Order) :
    findBySession sid (markPaid oid l) =
      (findBySession sid l).map
        (fun o => if o._id = oid then { o with payment := true, status := "confirmed" }
                  else o) := by
  induction l with
  | nil => rfl
  | cons hd tl ih =>
    unfold findBySession markPaid updateOrder
    unfold findBySession markPaid updateOrder at ih
    simp only [List.map_cons, List.find?_cons]
    by_cases h : hd._id = oid
    · by_cases hs : hd.stripeSessionId = some sid
      · simp [h, hs]
      · simp [h, hs, ih]
    · by_cases hs : hd.stripeSessionId = some sid
      · simp [h, hs]
      · simp [h, hs, ih]

theorem InvHolds_updateOrder {l : List Order} (oid : String) (f : Order → Order)
    (hf : ∀ o, o ∈ l → (o.payment = true → o.status = "confirmed") →
          ((f o).payment = true → (f o).status = "confirmed"))
    (h : InvHolds l) : InvHolds (updateOrder oid f l) := by
  intro o ho
  unfold updateOrder at ho
  obtain ⟨o₀, ho₀, rfl⟩ := List.mem_map.mp ho
  by_cases hid : o₀._id = oid
  · rw [if_pos hid]
    exact hf o₀ ho₀ (h o₀ ho₀)
  · rw [if_neg hid]
    exact h o₀ ho₀

theorem InvHolds_markPaid {l : List Order} (oid : String) (h : InvHolds l) :
    InvHolds (markPaid oid l) := by
  unfold markPaid
  exact InvHolds_updateOrder oid _ (fun o _ _ _ => rfl) h

theorem InvHolds_append {l : List Order} {o : Order} (h : InvHolds l)
    (ho : o.payment = false) : InvHolds (l ++ [o]) := by
  intro x hx
  rcases List.mem_append.mp hx with hx | hx
  · exact h x hx
  · rw [List.mem_singleton] at hx
    subst hx
    intro hp
    rw [ho] at hp
    cases hp

/-- C6: `verifyOrder` with a boolean-like true success marks the order paid
and confirmed; with a false-like value it marks the order cancelled and
keeps it in the store; with a missing `orderId` it fails with invalid
input and mutates no order. -/
theorem verifyOrder_spec (orders : List Order) (oid : String) (s : SuccessVal)
    (hoid : oid ≠ "") :
    (isTrueLike s = true →
      (verifyOrder (some oid) s orders).1 = .paid ∧
      ((verifyOrder (some oid) s orders).2).map Order._id = orders.map Order._id ∧
      ∀ o ∈ (verifyOrder (some oid) s orders).2,
        o._id = oid → o.payment = true ∧ o.status = "confirmed") ∧
    (isTrueLike s = false →
      (verifyOrder (some oid) s orders).1 = .notPaid ∧
      ((verifyOrder (some oid) s orders).2).map Order._id = orders.map Order._id ∧
      ∀ o ∈ (verifyOrder (some oid) s orders).2, o._id = oid → o.status = "cancelled") ∧
    verifyOrder none s orders = (.invalidInput, orders) := by
  have ho : optTruthy (some oid) = some oid := by
    simp only [optTruthy]
    rw [if_neg hoid]
  have hv : verifyOrder (some oid) s orders =
      (if isTrueLike s then (.paid, markPaid oid orders)
       else (.notPaid, updateOrder oid (fun o => { o with status := "cancelled" }) orders)) := by
    unfold verifyOrder
    rw [ho]
  refine ⟨?_, ?_, ?_⟩
  · intro hs
    rw [hv, if_pos hs]
    refine ⟨rfl, markPaid_map_id oid orders, ?_⟩
    intro o ho hid
    unfold markPaid updateOrder at ho
    obtain ⟨o₀, _, rfl⟩ := List.mem_map.mp ho
    by_cases h0 : o₀._id = oid
    · rw [if_pos h0]
      exact ⟨rfl, rfl⟩
    · rw [if_neg h0] at hid ⊢
      exact absurd hid h0
  · intro hs
    rw [hv, if_neg (by rw [hs]; exact Bool.false_ne_true)]
    refine ⟨rfl, updateOrder_map_id oid
      (fun o => { o with status := "cancelled" }) (fun _ => rfl) orders, ?_⟩
    intro o ho hid
    unfold updateOrder at ho
    obtain ⟨o₀, _, rfl⟩ := List.mem_map.mp ho
    by_cases h0 : o₀._id = oid
    · rw [if_pos h0]
    · rw [if_neg h0] at hid ⊢
      exact absurd hid h0
  · rfl

/-- Witness for C6 at concrete inputs. -/
theorem verifyOrder_spec_witness :
    ((verifyOrder (some "o1") (.s "true")
        [⟨"o1", "u1", [], .nan, "a", false, "stripe", "awaiting_payment", none⟩]).2 =
      [⟨"o1", "u1", [], .nan, "a", true, "stripe", "confirmed", none⟩]) ∧
    ((verifyOrder (some "o1") (.b false)
        [⟨"o1", "u1", [], .nan, "a", false, "stripe", "awaiting_payment", none⟩]).2 =
      [⟨"o1", "u1", [], .nan, "a", false, "stripe", "cancelled", none⟩]) ∧
    verifyOrder none (.b true)
        [⟨"o1", "u1", [], .nan, "a", false, "stripe", "awaiting_payment", none⟩] =
      (.invalidInput, [⟨"o1", "u1", [], .nan, "a", false, "stripe", "awaiting_payment", none⟩]) := by
  have h1 := verifyOrder_spec
    [⟨"o1", "u1", [], .nan, "a", false, "stripe", "awaiting_payment", none⟩]
    "o1" (.s "true") (by decide)
  have h2 := verifyOrder_spec
    [⟨"o1", "u1", [], .nan, "a", false, "stripe", "awaiting_payment", none⟩]
    "o1" (.b false) (by decide)
  refine ⟨?_, ?_, h2.2.2⟩
  · have := h1.1 (by decide)
    decide
  · have := h2.2.1 (by decide)
    decide

/-- C4: the webhook handler's response protocol: signature-verification
failure rejects the delivery and mutates no order; a database failure
after successful verification of a completed event that names or
references an order yields a server-error response with no mutation; a
verified completed event that matches no stored order is still
acknowledged and mutates no order. -/
theorem webhook_response_protocol (orders : List Order) (m : String)
    (ev : WebhookEvent) (dbOk : Bool) :
    stripeWebhookHandler (.error m) dbOk orders = (.reject ("Webhook Error: " ++ m), orders) ∧
    (ev.type = "checkout.session.completed" → dbOk = false →
      ((optTruthy ev.metadataOrderId).isSome = true ∨
        (optTruthy ev.metadataOrderId = none ∧ (optTruthy ev.sessionId).isSome = true)) →
      stripeWebhookHandler (.ok ev) dbOk orders = (.serverError, orders)) ∧
    (ev.type = "checkout.session.completed" →
      (∀ oid, optTruthy ev.metadataOrderId = some oid → ∀ o ∈ orders, o._id ≠ oid) →
      (∀ sid, optTruthy ev.sessionId = some sid → findBySession sid orders = none) →
      stripeWebhookHandler (.ok ev) true orders = (.ack, orders)) := by
  refine ⟨rfl, ?_, ?_⟩
  · intro ht hdb hcase
    rcases hcase with hsome | ⟨hnone, hsome⟩
    · obtain ⟨oid, hm⟩ := Option.isSome_iff_exists.mp hsome
      simp [stripeWebhookHandler, ht, hm, hdb]
    · obtain ⟨sid, hs⟩ := Option.isSome_iff_exists.mp hsome
      simp [stripeWebhookHandler, ht, hnone, hs, hdb]
  · intro ht hmeta hsid
    cases hm : optTruthy ev.metadataOrderId with
    | some oid =>
      have hnoop := markPaid_noop (hmeta oid hm)
      simp [stripeWebhookHandler, ht, hm, hnoop]
    | none =>
      cases hs : optTruthy ev.sessionId with
      | some sid =>
        simp [stripeWebhookHandler, ht, hm, hs, hsid sid hs]
      | none =>
        simp [stripeWebhookHandler, ht, hm, hs]

/-- A stored order used by the webhook witnesses. -/
def ordW : Order :=
  { _id := "o9", userId := "u1", items := [], amount := .nan, address := "a",
    payment := false, paymentMethod := "stripe", status := "awaiting_payment",
    stripeSessionId := some "sessZ" }

/-- A completed-checkout event that matches no stored order. -/
def evW : WebhookEvent :=
  { type := "checkout.session.completed", metadataOrderId := some "o1",
    sessionId := some "sess1" }

/-- Witness for C4 at concrete inputs. -/
theorem webhook_response_protocol_witness :
    stripeWebhookHandler (.error "bad sig") false [ordW] =
      (.reject "Webhook Error: bad sig", [ordW]) ∧
    stripeWebhookHandler (.ok evW) false [ordW] = (.serverError, [ordW]) ∧
    stripeWebhookHandler (.ok evW) true [ordW] = (.ack, [ordW]) := by
  obtain ⟨h1, h2, h3⟩ := webhook_response_protocol [ordW] "bad sig" evW false
  refine ⟨h1, h2 rfl rfl (Or.inl (by decide)), h3 rfl ?_ ?_⟩
  · intro oid h
    have hoid : oid = "o1" := by
      have hval : optTruthy evW.metadataOrderId = some "o1" := by decide
      rw [hval] at h
      exact (Option.some.injEq _ _).mp h.symm ▸ rfl
    subst hoid
    decide
  · intro sid h
    have hsid : sid = "sess1" := by
      have hval : optTruthy evW.sessionId = some "sess1" := by decide
      rw [hval] at h
      exact (Option.some.injEq _ _).mp h.symm ▸ rfl
    subst hsid
    decide

/-- C5: delivering the same verified checkout-completed event twice yields
the same final order store as delivering it once, and both deliveries are
acknowledged. -/
theorem webhook_idempotent (ev : WebhookEvent) (orders : List Order)
    (ht : ev.type = "checkout.session.completed") :
    (stripeWebhookHandler (.ok ev) true orders).1 = .ack ∧
    (stripeWebhookHandler (.ok ev) true
        ((stripeWebhookHandler (.ok ev) true orders).2)).1 = .ack ∧
    (stripeWebhookHandler (.ok ev) true
        ((stripeWebhookHandler (.ok ev) true orders).2)).2 =
      (stripeWebhookHandler (.ok ev) true orders).2 := by
  cases hm : optTruthy ev.metadataOrderId with
  | some oid =>
    have h1 : stripeWebhookHandler (.ok ev) true orders = (.ack, markPaid oid orders) := by
      simp [stripeWebhookHandler, ht, hm]
    have h2 : stripeWebhookHandler (.ok ev) true (markPaid oid orders) =
        (.ack, markPaid oid (markPaid oid orders)) := by
      simp [stripeWebhookHandler, ht, hm]
    rw [h1]
    dsimp only
    rw [h2]
    exact ⟨rfl, rfl, markPaid_idem oid orders⟩
  | none =>
    cases hs : optTruthy ev.sessionId with
    | some sid =>
      cases hf : findBySession sid orders with
      | some o =>
        have h1 : stripeWebhookHandler (.ok ev) true orders =
            (.ack, markPaid o._id orders) := by
          simp [stripeWebhookHandler, ht, hm, hs, hf]
        have hf2 : findBySession sid (markPaid o._id orders) =
            some { o with payment := true, status := "confirmed" } := by
          rw [findBySession_markPaid, hf]
          simp
        have h2 : stripeWebhookHandler (.ok ev) true (markPaid o._id orders) =
            (.ack, markPaid o._id (markPaid o._id orders)) := by
          simp [stripeWebhookHandler, ht, hm, hs, hf2]
        rw [h1]
        dsimp only
        rw [h2]
        exact ⟨rfl, rfl, markPaid_idem o._id orders⟩
      | none =>
        have h1 : stripeWebhookHandler (.ok ev) true orders = (.ack, orders) := by
          simp [stripeWebhookHandler, ht, hm, hs, hf]
        rw [h1]
        dsimp only
        rw [h1]
        exact ⟨rfl, rfl, rfl⟩
    | none =>
      have h1 : stripeWebhookHandler (.ok ev) true orders = (.ack, orders) := by
        simp [stripeWebhookHandler, ht, hm, hs]
      rw [h1]
      dsimp only
      rw [h1]
      exact ⟨rfl, rfl, rfl⟩

/-- A completed-checkout event whose metadata names the stored order `o9`. -/
def evW5 : WebhookEvent :=
  { type := "checkout.session.completed", metadataOrderId := some "o9",
    sessionId := some "sessZ" }

/-- Witness for C5 at concrete inputs. -/
theorem webhook_idempotent_witness :
    (stripeWebhookHandler (.ok evW5) true [ordW]).1 = .ack ∧
    (stripeWebhookHandler (.ok evW5) true
        ((stripeWebhookHandler (.ok evW5) true [ordW]).2)).1 = .ack ∧
    (stripeWebhookHandler (.ok evW5) true
        ((stripeWebhookHandler (.ok evW5) true [ordW]).2)).2 =
      (stripeWebhookHandler (.ok evW5) true [ordW]).2 :=
  webhook_idempotent evW5 [ordW] rfl

/-- An already-paid, confirmed order used by the invariant counterexample. -/
def ordPaid : Order :=
  { _id := "o1", userId := "u1", items := [], amount := .nan, address := "a",
    payment := true, paymentMethod := "stripe", status := "confirmed",
    stripeSessionId := none }

/-- C2 counterexample: not every operation preserves the invariant
`payment == true` implies `status == confirmed`: `updateStatus` on a paid
order overwrites the status with an arbitrary string (here "shipped")
while leaving `payment = true`. -/
theorem updateStatus_breaks_invariant :
    InvHolds [ordPaid] ∧
    (updateStatus (some "o1") (some "shipped") [ordPaid]).1 = .updated ∧
    ¬ InvHolds (updateStatus (some "o1") (some "shipped") [ordPaid]).2 := by
  refine ⟨by decide, by decide, by decide⟩

/-- C2 amended: `placeOrder`, `verifyOrder` with a true-like success value,
and the webhook handler preserve the invariant `payment == true` implies
`status == confirmed` (every operation that sets the payment flag sets the
status to confirmed at the same time); `updateStatus`, and `verifyOrder`
with a false-like value on an already-paid order, can break it. -/
theorem payment_confirmed_preserved (env : Env) (newId : String) (req : PlaceReq)
    (orders : List Order) (users : List User) (oid : Option String) (s : SuccessVal)
    (verif : Except String WebhookEvent) (dbOk : Bool)
    (hinv : InvHolds orders) :
    InvHolds (placeOrder env newId req orders users).orders ∧
    (isTrueLike s = true → InvHolds (verifyOrder oid s orders).2) ∧
    InvHolds (stripeWebhookHandler verif dbOk orders).2 := by
  refine ⟨?_, ?_, ?_⟩
  · unfold placeOrder
    split
    · exact hinv
    · split
      · exact hinv
      · split
        · exact hinv
        · split
          · exact hinv
          · dsimp only
            split
            · exact InvHolds_append hinv rfl
            · split
              · exact InvHolds_append hinv rfl
              · split
                · exact InvHolds_updateOrder _ _
                    (fun o _ h hp => h hp) (InvHolds_append hinv rfl)
                · exact InvHolds_updateOrder _ _
                    (fun o _ h hp => h hp) (InvHolds_append hinv rfl)
  · intro hs
    unfold verifyOrder
    split
    · exact hinv
    · rw [if_pos hs]
      exact InvHolds_markPaid _ hinv
  · unfold stripeWebhookHandler
    split
    · exact hinv
    · split
      · split
        · split
          · exact InvHolds_markPaid _ hinv
          · exact hinv
        · split
          · split
            · split
              · exact InvHolds_markPaid _ hinv
              · exact hinv
            · exact hinv
          · exact hinv
      · exact hinv

/-- Environment fixture for the `placeOrder` witnesses. -/
def envW : Env :=
  { deliveryFeeEnv := .num 80, cartClearOk := true,
    sessionRes := .ok { id := "sess1", url := some "http://pay" } }

/-- A well-formed input item. -/
def itemA : ItemIn :=
  { _id := "p1", name := some "Choc", price := .num 100, quantity := .num 2,
    image := none }

/-- A cash-on-delivery request carrying `itemA`. -/
def reqCod : PlaceReq :=
  { userId := some "u1", items := some [itemA], amount := .num 250,
    address := "addr", paymentMethod := some "cod" }

/-- Witness for C2 amended at concrete inputs. -/
theorem payment_confirmed_preserved_witness :
    InvHolds (placeOrder envW "o2" reqCod [ordPaid] []).orders ∧
    InvHolds (verifyOrder (some "o1") (.b true) [ordPaid]).2 ∧
    InvHolds (stripeWebhookHandler (.ok evW) true [ordPaid]).2 := by
  obtain ⟨h1, h2, h3⟩ := payment_confirmed_preserved envW "o2" reqCod [ordPaid] []
    (some "o1") (.b true) (.ok evW) true (by decide)
  exact ⟨h1, h2 rfl, h3⟩

/-- C1: a `placeOrder` call (with a resolvable user) whose items contain a
negatively- or non-numerically-priced item fails with the item-specific
invalid-price error and creates no order: both stores are unchanged and
the gateway is never contacted. -/
theorem placeOrder_invalid_price (env : Env) (newId : String) (req : PlaceReq)
    (orders : List Order) (users : List User) (uid : String) (its : List ItemIn)
    (it : ItemIn) (huid : req.userId = some uid) (hits : req.items = some its)
    (hmem : it ∈ its) (hbad : badPrice it = true) :
    ∃ w, w ∈ its ∧ badPrice w = true ∧
      placeOrder env newId req orders users =
        ⟨.invalidItem ("Invalid price for item " ++ itemLabel w),
         orders, users, false, []⟩ := by
  obtain ⟨w, hw, hwbad, herr⟩ := normalizeItems_error_of_bad hmem hbad
  refine ⟨w, hw, hwbad, ?_⟩
  have hne : its.isEmpty = false := by
    cases its
    · cases hmem
    · rfl
  unfold placeOrder
  simp [huid, hits, hne, herr]

/-- An input item whose price coerces to a negative number. -/
def itemBad : ItemIn :=
  { _id := "pb", name := some "Bad", price := .num (-5), quantity := .num 1,
    image := none }

/-- A request whose second item has a negative price. -/
def reqBad : PlaceReq :=
  { userId := some "u1", items := some [itemA, itemBad], amount := .num 5,
    address := "addr", paymentMethod := some "cod" }

/-- Witness for C1 at concrete inputs. -/
theorem placeOrder_invalid_price_witness :
    placeOrder envW "o1" reqBad [] [] =
      ⟨.invalidItem ("Invalid price for item " ++ itemLabel itemBad),
       [], [], false, []⟩ := by
  obtain ⟨w, hw, hwbad, heq⟩ := placeOrder_invalid_price envW "o1" reqBad [] []
    "u1" [itemA, itemBad] itemBad rfl rfl (by decide) (by decide)
  have hwv : w = itemBad := by
    rcases List.mem_cons.mp hw with h | h
    · rw [h] at hwbad
      exact absurd hwbad (by decide)
    · simpa using h
  rw [hwv] at heq
  exact heq

/-- C7: a `placeOrder` call with payment method `cod` or `none` never
contacts the payment gateway and sends it no line items; when the call
validates (user resolvable, non-empty item list, all prices valid) it
returns success with the created order, whose status is `pending`, and
that order is persisted. -/
theorem placeOrder_cod_no_gateway (env : Env) (newId : String) (req : PlaceReq)
    (orders : List Order) (users : List User) (uid : String) (its : List ItemIn)
    (nitems : List Item)
    (hpm : req.paymentMethod = some "cod" ∨ req.paymentMethod = some "none") :
    (placeOrder env newId req orders users).gatewayContacted = false ∧
    (placeOrder env newId req orders users).lineItems = [] ∧
    (req.userId = some uid → req.items = some its → its.isEmpty = false →
      normalizeItems its = .ok nitems →
      ∃ o, (placeOrder env newId req orders users).res = .codSuccess o ∧
        o.status = "pending" ∧ o.payment = false ∧ o.items = nitems ∧
        o ∈ (placeOrder env newId req orders users).orders) := by
  have hcod : req.paymentMethod.getD "stripe" = "cod" ∨
      req.paymentMethod.getD "stripe" = "none" := by
    rcases hpm with h | h <;> simp [h]
  have hnotstripe : ¬ req.paymentMethod.getD "stripe" = "stripe" := by
    rcases hcod with h | h <;> rw [h] <;> decide
  have hng : (placeOrder env newId req orders users).gatewayContacted = false ∧
      (placeOrder env newId req orders users).lineItems = [] := by
    unfold placeOrder
    split
    · exact ⟨rfl, rfl⟩
    · split
      · exact ⟨rfl, rfl⟩
      · split
        · exact ⟨rfl, rfl⟩
        · split
          · exact ⟨rfl, rfl⟩
          · dsimp only
            split
            · exact ⟨rfl, rfl⟩
            · next hcond => exact absurd hcod hcond
  refine ⟨hng.1, hng.2, ?_⟩
  intro huid hits hne hn
  unfold placeOrder
  simp only [huid, hits, hne, hn, Bool.false_eq_true, if_false]
  rw [if_pos hcod]
  refine ⟨_, rfl, ?_, rfl, rfl, ?_⟩
  · dsimp only
    rw [if_neg hnotstripe]
  · dsimp only
    exact List.mem_append_right _ (List.mem_singleton_self _)

/-- The normalized line item that `reqCod` stores. -/
def itemAStored : Item :=
  { _id := "p1", name := some "Choc", price := 100, quantity := 2, image := none }

/-- The order that `placeOrder` creates for `reqCod`. -/
def codOrderW : Order :=
  { _id := "o1", userId := "u1", items := [itemAStored], amount := .num 250,
    address := "addr", payment := false, paymentMethod := "cod",
    status := "pending", stripeSessionId := none }

/-- Witness for C7 at concrete inputs. -/
theorem placeOrder_cod_no_gateway_witness :
    (placeOrder envW "o1" reqCod [] []).gatewayContacted = false ∧
    (placeOrder envW "o1" reqCod [] []).lineItems = [] ∧
    (placeOrder envW "o1" reqCod [] []).res = .codSuccess codOrderW := by
  obtain ⟨h1, h2, h3⟩ := placeOrder_cod_no_gateway envW "o1" reqCod [] [] "u1"
    [itemA] [itemAStored] (Or.inl rfl)
  obtain ⟨o, hres, hstat, hpay, hitems, hmem⟩ := h3 rfl rfl rfl rfl
  refine ⟨h1, h2, ?_⟩
  rw [hres]
  have ho : o = codOrderW := by
    have hout : (placeOrder envW "o1" reqCod [] []).orders = [codOrderW] := by decide
    rw [hout] at hmem
    simpa using hmem
  rw [ho]

/-- The order record `placeOrder` persists before branching on the payment
method. -/
def newOrderOf (newId uid : String) (nitems : List Item) (req : PlaceReq) : Order :=
  { _id := newId, userId := uid, items := nitems, amount := req.amount,
    address := req.address, payment := false,
    paymentMethod := req.paymentMethod.getD "stripe",
    status := if req.paymentMethod.getD "stripe" = "stripe"
              then "awaiting_payment" else "pending",
    stripeSessionId := none }

/-- Unfolding of `placeOrder` once validation has passed: the order is
persisted, the cart best-effort cleared, and the payment branch taken. -/
theorem placeOrder_eq (env : Env) (newId : String) (req : PlaceReq)
    (orders : List Order) (users : List User) (uid : String) (its : List ItemIn)
    (nitems : List Item) (huid : req.userId = some uid) (hits : req.items = some its)
    (hne : its.isEmpty = false) (hn : normalizeItems its = .ok nitems) :
    placeOrder env newId req orders users =
      (let pm := req.paymentMethod.getD "stripe"
       let newOrder : Order := newOrderOf newId uid nitems req
       let orders1 := orders ++ [newOrder]
       let users1 := if env.cartClearOk then clearCart uid users else users
       if pm = "cod" ∨ pm = "none" then
         ⟨.codSuccess newOrder, orders1, users1, false, []⟩
       else
         let li := nitems.map mkLineItem
         let fee := jsOr env.deliveryFeeEnv 80
         let line_items := if fee > 0 then li ++ [deliveryLineItem fee] else li
         match env.sessionRes with
         | .error m => ⟨.gatewayError m, orders1, users1, true, line_items⟩
         | .ok sess =>
           let orders2 :=
             updateOrder newId (fun o => { o with stripeSessionId := some sess.id }) orders1
           match optTruthy sess.url with
           | none => ⟨.gatewayNoUrl, orders2, users1, true, line_items⟩
           | some u => ⟨.stripeSuccess u, orders2, users1, true, line_items⟩) := by
  unfold placeOrder newOrderOf
  simp only [huid, hits, hne, Bool.false_eq_true, if_false, hn]

theorem items_of_mem_updateOrder {l : List Order} {o : Order} (oid : String)
    (f : Order → Order) (hf : ∀ w, (f w).items = w.items)
    (ho : o ∈ updateOrder oid f l) : ∃ w ∈ l, o.items = w.items := by
  unfold updateOrder at ho
  obtain ⟨w, hw, rfl⟩ := List.mem_map.mp ho
  refine ⟨w, hw, ?_⟩
  by_cases h : w._id = oid
  · rw [if_pos h, hf]
  · rw [if_neg h]

/-- An input item whose quantity coerces to −1 (a truthy number, so the
`|| 1` default does not fire). -/
def itemNegQty : ItemIn :=
  { _id := "p2", name := some "Neg", price := .num 5, quantity := .num (-1),
    image := none }

/-- A cash-on-delivery request carrying `itemNegQty`. -/
def reqNegQty : PlaceReq :=
  { userId := some "u1", items := some [itemNegQty], amount := .num 5,
    address := "addr", paymentMethod := some "cod" }

/-- The stored form of `itemNegQty`. -/
def negQtyStored : Item :=
  { _id := "p2", name := some "Neg", price := 5, quantity := -1, image := none }

/-- The order `placeOrder` creates for `reqNegQty`. -/
def negQtyOrder : Order :=
  { _id := "o1", userId := "u1", items := [negQtyStored], amount := .num 5,
    address := "addr", payment := false, paymentMethod := "cod",
    status := "pending", stripeSessionId := none }

/-- C8 counterexample: `placeOrder` accepts an item whose quantity coerces
to −1 and stores it unchanged, so a stored line item can have quantity
below 1. -/
theorem quantity_not_ge_one :
    (placeOrder envW "o1" reqNegQty [] []).orders = [negQtyOrder] ∧
    negQtyOrder.items = [negQtyStored] ∧
    negQtyStored.quantity = -1 ∧
    ¬ ((1 : ℚ) ≤ negQtyStored.quantity) :=
  ⟨by decide, by decide, by decide, by decide⟩

/-- C8 amended: the quantity stored on each line item of an order created
by `placeOrder` is the JavaScript coercion `Number(quantity) || 1` of the
input quantity: a missing/non-numeric (NaN) or zero quantity defaults to
1, but any other numeric quantity — including a negative or fractional
one — is stored as-is, so stored quantities are not guaranteed to be
at least 1. -/
theorem placeOrder_quantity_coercion (env : Env) (newId : String) (req : PlaceReq)
    (orders : List Order) (users : List User) (uid : String) (its : List ItemIn)
    (nitems : List Item) (huid : req.userId = some uid) (hits : req.items = some its)
    (hne : its.isEmpty = false) (hn : normalizeItems its = .ok nitems) :
    nitems.map Item.quantity = its.map (fun it => coerceQty it.quantity) ∧
    coerceQty .nan = 1 ∧ coerceQty (.num 0) = 1 ∧
    ∀ o ∈ (placeOrder env newId req orders users).orders,
      (∃ w ∈ orders, o.items = w.items) ∨ o.items = nitems := by
  refine ⟨normalizeItems_ok_quantities hn, rfl, by decide, ?_⟩
  intro o ho
  rw [placeOrder_eq env newId req orders users uid its nitems huid hits hne hn] at ho
  dsimp only at ho
  by_cases hcod : (req.paymentMethod.getD "stripe" = "cod" ∨
      req.paymentMethod.getD "stripe" = "none")
  · rw [if_pos hcod] at ho
    dsimp only at ho
    rcases List.mem_append.mp ho with h | h
    · exact Or.inl ⟨o, h, rfl⟩
    · rw [List.mem_singleton] at h
      subst h
      exact Or.inr rfl
  · rw [if_neg hcod] at ho
    cases hs : env.sessionRes with
    | error m =>
      rw [hs] at ho
      dsimp only at ho
      rcases List.mem_append.mp ho with h | h
      · exact Or.inl ⟨o, h, rfl⟩
      · rw [List.mem_singleton] at h
        subst h
        exact Or.inr rfl
    | ok sess =>
      rw [hs] at ho
      dsimp only at ho
      have hmem : o ∈ updateOrder newId
          (fun w => { w with stripeSessionId := some sess.id })
          (orders ++ [newOrderOf newId uid nitems req]) := by
        cases hu : optTruthy sess.url with
        | none => rw [hu] at ho; exact ho
        | some u => rw [hu] at ho; exact ho
      obtain ⟨w, hw, hitems⟩ :=
        items_of_mem_updateOrder newId
          (fun w => { w with stripeSessionId := some sess.id }) (fun _ => rfl) hmem
      rcases List.mem_append.mp hw with h | h
      · exact Or.inl ⟨w, h, hitems⟩
      · rw [List.mem_singleton] at h
        subst h
        exact Or.inr hitems

/-- Witness for C8 amended at concrete inputs. -/
theorem placeOrder_quantity_coercion_witness :
    [itemAStored].map Item.quantity = [coerceQty itemA.quantity] ∧
    coerceQty .nan = 1 := by
  obtain ⟨h1, h2, _, _⟩ := placeOrder_quantity_coercion envW "o1" reqCod [] []
    "u1" [itemA] [itemAStored] rfl rfl rfl rfl
  exact ⟨h1, h2⟩

theorem cartData_clearCart {users : List User} (uid : String) :
    ∀ u ∈ clearCart uid users, u._id = uid → u.cartData = [] := by
  intro u hu hid
  unfold clearCart at hu
  obtain ⟨u₀, _, rfl⟩ := List.mem_map.mp hu
  by_cases h : u₀._id = uid
  · rw [if_pos h]
  · rw [if_neg h] at hid ⊢
    exact absurd hid h

theorem length_updateOrder (oid : String) (f : Order → Order) (l : List Order) :
    (updateOrder oid f l).length = l.length :=
  List.length_map l _

/-- The user store after a validated `placeOrder` call: the cart is
cleared exactly when the cart write succeeds. -/
theorem placeOrder_users_eq (env : Env) (newId : String) (req : PlaceReq)
    (orders : List Order) (users : List User) (uid : String) (its : List ItemIn)
    (nitems : List Item) (huid : req.userId = some uid) (hits : req.items = some its)
    (hne : its.isEmpty = false) (hn : normalizeItems its = .ok nitems) :
    (placeOrder env newId req orders users).users =
      (if env.cartClearOk then clearCart uid users else users) := by
  rw [placeOrder_eq env newId req orders users uid its nitems huid hits hne hn]
  dsimp only
  by_cases hcod : (req.paymentMethod.getD "stripe" = "cod" ∨
      req.paymentMethod.getD "stripe" = "none")
  · rw [if_pos hcod]
  · rw [if_neg hcod]
    cases hs : env.sessionRes with
    | error m => rfl
    | ok sess =>
      dsimp only
      cases hu : optTruthy sess.url with
      | none => rfl
      | some u => rfl

/-- The response and the order store of a validated `placeOrder` call do
not depend on whether the cart-clearing write succeeds. -/
theorem placeOrder_indep_cartClear (env : Env) (b : Bool) (newId : String)
    (req : PlaceReq) (orders : List Order) (users : List User) (uid : String)
    (its : List ItemIn) (nitems : List Item) (huid : req.userId = some uid)
    (hits : req.items = some its) (hne : its.isEmpty = false)
    (hn : normalizeItems its = .ok nitems) :
    (placeOrder { env with cartClearOk := b } newId req orders users).res =
      (placeOrder env newId req orders users).res ∧
    (placeOrder { env with cartClearOk := b } newId req orders users).orders =
      (placeOrder env newId req orders users).orders := by
  rw [placeOrder_eq { env with cartClearOk := b } newId req orders users uid its
        nitems huid hits hne hn,
      placeOrder_eq env newId req orders users uid its nitems huid hits hne hn]
  dsimp only
  by_cases hcod : (req.paymentMethod.getD "stripe" = "cod" ∨
      req.paymentMethod.getD "stripe" = "none")
  · rw [if_pos hcod, if_pos hcod]
    exact ⟨rfl, rfl⟩
  · rw [if_neg hcod, if_neg hcod]
    cases hs : env.sessionRes with
    | error m => exact ⟨rfl, rfl⟩
    | ok sess =>
      dsimp only
      cases hu : optTruthy sess.url with
      | none => exact ⟨rfl, rfl⟩
      | some u => exact ⟨rfl, rfl⟩

/-- A validated `placeOrder` call grows the order store by exactly one
order. -/
theorem placeOrder_orders_length (env : Env) (newId : String) (req : PlaceReq)
    (orders : List Order) (users : List User) (uid : String) (its : List ItemIn)
    (nitems : List Item) (huid : req.userId = some uid) (hits : req.items = some its)
    (hne : its.isEmpty = false) (hn : normalizeItems its = .ok nitems) :
    (placeOrder env newId req orders users).orders.length = orders.length + 1 := by
  rw [placeOrder_eq env newId req orders users uid its nitems huid hits hne hn]
  dsimp only
  by_cases hcod : (req.paymentMethod.getD "stripe" = "cod" ∨
      req.paymentMethod.getD "stripe" = "none")
  · rw [if_pos hcod]
    dsimp only
    rw [List.length_append]
    rfl
  · rw [if_neg hcod]
    cases hs : env.sessionRes with
    | error m =>
      dsimp only
      rw [List.length_append]
      rfl
    | ok sess =>
      dsimp only
      cases hu : optTruthy sess.url with
      | none =>
        dsimp only
        rw [length_updateOrder, List.length_append]
        rfl
      | some u =>
        dsimp only
        rw [length_updateOrder, List.length_append]
        rfl

/-- The line items a validated stripe-path `placeOrder` call sends to the
gateway: one per normalized item plus the delivery item when the
configured fee is positive. -/
theorem placeOrder_lineItems_eq (env : Env) (newId : String) (req : PlaceReq)
    (orders : List Order) (users : List User) (uid : String) (its : List ItemIn)
    (nitems : List Item) (huid : req.userId = some uid) (hits : req.items = some its)
    (hne : its.isEmpty = false) (hn : normalizeItems its = .ok nitems)
    (hpm : ¬(req.paymentMethod.getD "stripe" = "cod" ∨
             req.paymentMethod.getD "stripe" = "none")) :
    (placeOrder env newId req orders users).lineItems =
      (if jsOr env.deliveryFeeEnv 80 > 0
       then nitems.map mkLineItem ++ [deliveryLineItem (jsOr env.deliveryFeeEnv 80)]
       else nitems.map mkLineItem) ∧
    (placeOrder env newId req orders users).gatewayContacted = true := by
  rw [placeOrder_eq env newId req orders users uid its nitems huid hits hne hn]
  dsimp only
  rw [if_neg hpm]
  cases hs : env.sessionRes with
  | error m => exact ⟨rfl, rfl⟩
  | ok sess =>
    dsimp only
    cases hu : optTruthy sess.url with
    | none => exact ⟨rfl, rfl⟩
    | some u => exact ⟨rfl, rfl⟩

/-- C9: once the order of a validated `placeOrder` call is persisted, the
user's cart is set to the empty mapping when the cart write succeeds,
regardless of payment method or payment outcome; when the cart write
fails, the failure is not propagated — the response and the final order
store are identical to the successful-clear run — and the created order is
not rolled back (the store still grows by one). -/
theorem placeOrder_cart_clear (env : Env) (newId : String) (req : PlaceReq)
    (orders : List Order) (users : List User) (uid : String) (its : List ItemIn)
    (nitems : List Item) (huid : req.userId = some uid) (hits : req.items = some its)
    (hne : its.isEmpty = false) (hn : normalizeItems its = .ok nitems) :
    (env.cartClearOk = true →
      ∀ u ∈ (placeOrder env newId req orders users).users,
        u._id = uid → u.cartData = []) ∧
    (placeOrder { env with cartClearOk := false } newId req orders users).res =
      (placeOrder { env with cartClearOk := true } newId req orders users).res ∧
    (placeOrder { env with cartClearOk := false } newId req orders users).orders =
      (placeOrder { env with cartClearOk := true } newId req orders users).orders ∧
    (placeOrder { env with cartClearOk := false } newId req orders users).users = users ∧
    (placeOrder { env with cartClearOk := false } newId req orders users).orders.length =
      orders.length + 1 := by
  have hF := placeOrder_indep_cartClear env false newId req orders users uid its
    nitems huid hits hne hn
  have hT := placeOrder_indep_cartClear env true newId req orders users uid its
    nitems huid hits hne hn
  refine ⟨?_, ?_, ?_, ?_, ?_⟩
  · intro hclear u hu hid
    rw [placeOrder_users_eq env newId req orders users uid its nitems huid hits
          hne hn, hclear, if_pos rfl] at hu
    exact cartData_clearCart uid u hu hid
  · rw [hF.1, hT.1]
  · rw [hF.2, hT.2]
  · rw [placeOrder_users_eq { env with cartClearOk := false } newId req orders
          users uid its nitems huid hits hne hn]
    rfl
  · rw [hF.2]
    exact placeOrder_orders_length env newId req orders users uid its nitems
      huid hits hne hn

/-- A user fixture whose cart holds one product. -/
def userW : User := { _id := "u1", cartData := [("p1", 2)] }

/-- Witness for C9 at concrete inputs: after a successful clear the stored
cart is empty; with a failing clear the response and order store match the
successful run, the user store is untouched, and the order is kept. -/
theorem placeOrder_cart_clear_witness :
    (placeOrder envW "o1" reqCod [] [userW]).users = [⟨"u1", []⟩] ∧
    (placeOrder { envW with cartClearOk := false } "o1" reqCod [] [userW]).res =
      (placeOrder { envW with cartClearOk := true } "o1" reqCod [] [userW]).res ∧
    (placeOrder { envW with cartClearOk := false } "o1" reqCod [] [userW]).users =
      [userW] ∧
    (placeOrder { envW with cartClearOk := false } "o1" reqCod []
        [userW]).orders.length = 0 + 1 := by
  obtain ⟨h1, h2, _, h4, h5⟩ := placeOrder_cart_clear envW "o1" reqCod []
    [userW] "u1" [itemA] [itemAStored] rfl rfl rfl rfl
  have hc : (placeOrder envW "o1" reqCod [] [userW]).users = [⟨"u1", []⟩] := by
    decide
  exact ⟨hc, h2, h4, h5⟩

theorem jsRound_ofNat (n : ℕ) : jsRound (n : ℚ) = n := by
  unfold jsRound
  rw [Rat.num_natCast, Rat.den_natCast]
  omega

/-- C10: when the configured delivery fee coerces to 0 or NaN (unset or
non-numeric), the `|| 80` fallback reinstates the default fee of 80, so a
validated stripe-path call still sends a delivery line item of 8000
smallest-currency units: configuring a zero delivery fee does not
suppress the delivery charge. -/
theorem delivery_fee_fallback (env : Env) (newId : String) (req : PlaceReq)
    (orders : List Order) (users : List User) (uid : String) (its : List ItemIn)
    (nitems : List Item) (huid : req.userId = some uid) (hits : req.items = some its)
    (hne : its.isEmpty = false) (hn : normalizeItems its = .ok nitems)
    (hpm : ¬(req.paymentMethod.getD "stripe" = "cod" ∨
             req.paymentMethod.getD "stripe" = "none"))
    (hfee : env.deliveryFeeEnv = .num 0 ∨ env.deliveryFeeEnv = .nan) :
    jsOr env.deliveryFeeEnv 80 = 80 ∧
    (placeOrder env newId req orders users).lineItems =
      nitems.map mkLineItem ++ [deliveryLineItem 80] ∧
    deliveryLineItem 80 =
      { name := "Delivery Charges", unit_amount := 8000, quantity := 1 } := by
  have hj : jsOr env.deliveryFeeEnv 80 = 80 := by
    rcases hfee with h | h <;> simp [jsOr, h]
  obtain ⟨hli, _⟩ := placeOrder_lineItems_eq env newId req orders users uid its
    nitems huid hits hne hn hpm
  refine ⟨hj, ?_, ?_⟩
  · rw [hli, hj, if_pos (by norm_num)]
  · unfold deliveryLineItem
    have h80 : (80 : ℚ) * 100 = ((8000 : ℕ) : ℚ) := by norm_num
    rw [h80, jsRound_ofNat]
    norm_num

/-- Environment with delivery fee configured to 0. -/
def envZ : Env :=
  { deliveryFeeEnv := .num 0, cartClearOk := true,
    sessionRes := .ok { id := "sess1", url := some "http://pay" } }

/-- A default-method (stripe) request carrying `itemA`. -/
def reqStripe : PlaceReq :=
  { userId := some "u1", items := some [itemA], amount := .num 250,
    address := "addr", paymentMethod := none }

/-- Witness for C10 at concrete inputs. -/
theorem delivery_fee_fallback_witness :
    jsOr (JSNum.num 0) 80 = 80 ∧
    (placeOrder envZ "o1" reqStripe [] []).lineItems =
      [mkLineItem itemAStored, deliveryLineItem 80] := by
  obtain ⟨h1, h2, _⟩ := delivery_fee_fallback envZ "o1" reqStripe [] [] "u1"
    [itemA] [itemAStored] rfl rfl rfl rfl (by decide) (Or.inl rfl)
  exact ⟨h1, by simpa using h2⟩

/-- C3 counterexample input: an item whose valid price 1/200 yields
`price * 100 = 1/2`, which `Math.round` turns into 1 — not equal to the
price multiplied by 100. -/
def itemTiny : ItemIn :=
  { _id := "pt", name := some "Tiny", price := .num (1/200),
    quantity := .num 1, image := none }

/-- The stored form of `itemTiny`. -/
def itemTinyStored : Item :=
  { _id := "pt", name := some "Tiny", price := 1/200, quantity := 1,
    image := none }

/-- A stripe request carrying `itemTiny`. -/
def reqTiny : PlaceReq :=
  { userId := some "u1", items := some [itemTiny], amount := .num 1,
    address := "addr", paymentMethod := some "stripe" }

/-- The persisted order of the `reqTiny` call after the session id is
stored on it. -/
def tinyOrderFinal : Order :=
  { _id := "o1", userId := "u1", items := [itemTinyStored], amount := .num 1,
    address := "addr", payment := false, paymentMethod := "stripe",
    status := "awaiting_payment", stripeSessionId := some "sess1" }

/-- C3 counterexample: on the stripe path the gateway unit amount is
`Math.round(price * 100)`, not `price * 100`: for the stored (validated)
price 1/200 the call sends unit amount 1, while the price multiplied by
100 is 1/2. -/
theorem lineitem_rounding_counterexample :
    (placeOrder envW "o1" reqTiny [] []).lineItems.map LineItem.unit_amount =
      [1, 8000] ∧
    (placeOrder envW "o1" reqTiny [] []).orders = [tinyOrderFinal] ∧
    tinyOrderFinal.items = [itemTinyStored] ∧
    itemTinyStored.price = (1 : ℚ)/200 ∧
    ¬ (((1 : ℤ) : ℚ) = (1 : ℚ)/200 * 100) := by
  have hn : normalizeItems [itemTiny] = .ok [itemTinyStored] := by
    unfold itemTiny itemTinyStored
    norm_num [normalizeItems, normalizeItem, coerceQty, optTruthy]
  have hE := placeOrder_eq envW "o1" reqTiny [] [] "u1" [itemTiny]
    [itemTinyStored] rfl rfl rfl hn
  have hr1 : jsRound ((1 : ℚ)/200 * 100) = 1 := by
    have hhalf : (1 : ℚ)/200 * 100 = 1/2 := by norm_num
    rw [jsRound_eq_floor, hhalf]
    norm_num
  have hr2 : jsRound ((80 : ℚ) * 100) = 8000 := by
    have h80 : (80 : ℚ) * 100 = ((8000 : ℕ) : ℚ) := by norm_num
    rw [h80, jsRound_ofNat]
    norm_num
  have hne80 : (80 : ℚ) ≠ 0 := by norm_num
  have hpos80 : (0 : ℚ) < 80 := by norm_num
  refine ⟨?_, ?_, rfl, rfl, ?_⟩
  · rw [hE]
    simp [envW, reqTiny, jsOr, optTruthy, mkLineItem, deliveryLineItem,
      itemTinyStored, strOr, hr1, hr2, hne80, hpos80, -one_div]
  · rw [hE]
    simp [envW, reqTiny, jsOr, optTruthy, updateOrder, newOrderOf,
      itemTinyStored, tinyOrderFinal, hne80, hpos80, -one_div]
  · norm_num

/-- C3 amended: a validated stripe-path `placeOrder` call sends exactly one
line item per normalized order item, with the item's quantity and with
unit amount equal to the item price times 100 rounded to the nearest
integer (half away from zero for the non-negative validated prices) —
exactly price × 100 whenever that product is an integer — plus, when the
configured delivery fee is positive, one delivery line item with the fee
times 100 rounded and quantity 1. -/
theorem placeOrder_line_items (env : Env) (newId : String) (req : PlaceReq)
    (orders : List Order) (users : List User) (uid : String) (its : List ItemIn)
    (nitems : List Item) (huid : req.userId = some uid) (hits : req.items = some its)
    (hne : its.isEmpty = false) (hn : normalizeItems its = .ok nitems)
    (hpm : ¬(req.paymentMethod.getD "stripe" = "cod" ∨
             req.paymentMethod.getD "stripe" = "none")) :
    (placeOrder env newId req orders users).lineItems =
      (if jsOr env.deliveryFeeEnv 80 > 0
       then nitems.map mkLineItem ++ [deliveryLineItem (jsOr env.deliveryFeeEnv 80)]
       else nitems.map mkLineItem) ∧
    (∀ item : Item, (mkLineItem item).unit_amount = jsRound (item.price * 100) ∧
      (mkLineItem item).quantity = item.quantity) ∧
    (∀ fee : ℚ, deliveryLineItem fee =
      { name := "Delivery Charges", unit_amount := jsRound (fee * 100), quantity := 1 }) ∧
    (∀ q : ℚ, jsRound q = ⌊q + 1/2⌋) ∧
    (∀ p : ℚ, (p * 100).den = 1 → ((jsRound (p * 100) : ℤ) : ℚ) = p * 100) :=
  ⟨(placeOrder_lineItems_eq env newId req orders users uid its nitems
      huid hits hne hn hpm).1,
   fun _ => ⟨rfl, rfl⟩, fun _ => rfl, jsRound_eq_floor,
   fun _ hp => jsRound_exact _ hp⟩

/-- The spec example's first item: price 100, quantity 2. -/
def itemEx1 : ItemIn :=
  { _id := "pa", name := some "A", price := .num 100, quantity := .num 2,
    image := none }

/-- The spec example's second item: price 50, quantity 1. -/
def itemEx2 : ItemIn :=
  { _id := "pe", name := some "B", price := .num 50, quantity := .num 1,
    image := none }

/-- Stored form of `itemEx1`. -/
def itemEx1Stored : Item :=
  { _id := "pa", name := some "A", price := 100, quantity := 2, image := none }

/-- Stored form of `itemEx2`. -/
def itemEx2Stored : Item :=
  { _id := "pe", name := some "B", price := 50, quantity := 1, image := none }

/-- The spec example's request (default payment method, i.e. stripe). -/
def reqEx : PlaceReq :=
  { userId := some "u1", items := some [itemEx1, itemEx2], amount := .num 250,
    address := "addr", paymentMethod := none }

/-- Witness for C3 amended: the spec's own example — items
`[{price:100,quantity:2},{price:50,quantity:1}]` with delivery fee 80
produce gateway line items with amounts 10000, 5000 and 8000. -/
theorem placeOrder_line_items_witness :
    (placeOrder envW "o1" reqEx [] []).lineItems =
      [{ name := "A", unit_amount := 10000, quantity := 2 },
       { name := "B", unit_amount := 5000, quantity := 1 },
       { name := "Delivery Charges", unit_amount := 8000, quantity := 1 }] := by
  obtain ⟨hli, _, _, _, _⟩ := placeOrder_line_items envW "o1" reqEx [] [] "u1"
    [itemEx1, itemEx2] [itemEx1Stored, itemEx2Stored] rfl rfl rfl rfl (by decide)
  rw [hli]
  have hA : jsRound ((100 : ℚ) * 100) = 10000 := by
    have h : (100 : ℚ) * 100 = ((10000 : ℕ) : ℚ) := by norm_num
    rw [h, jsRound_ofNat]
    norm_num
  have hB : jsRound ((50 : ℚ) * 100) = 5000 := by
    have h : (50 : ℚ) * 100 = ((5000 : ℕ) : ℚ) := by norm_num
    rw [h, jsRound_ofNat]
    norm_num
  have hD : jsRound ((80 : ℚ) * 100) = 8000 := by
    have h : (80 : ℚ) * 100 = ((8000 : ℕ) : ℚ) := by norm_num
    rw [h, jsRound_ofNat]
    norm_num
  have hne80 : (80 : ℚ) ≠ 0 := by norm_num
  have hpos80 : (0 : ℚ) < 80 := by norm_num
  simp [envW, jsOr, mkLineItem, deliveryLineItem, strOr, itemEx1Stored,
    itemEx2Stored, hA, hB, hD, hne80, hpos80]

end Snack
